import Mathlib

/-!
Shallow embedding of `src/libdnf/repo/librepo.cpp` (libdnf repo download
adapter): the percent-encoder `url_encode`, the credential joiner
`format_user_pass_string`, the move-assignment operators of the
`LibrepoHandle` / `LibrepoResult` wrappers, and the option-application
routine `init_remote`.

Modelling conventions:
* `std::string` values that are treated as byte strings (the encoder and
  credential inputs) are `List (Fin 256)`; config strings compared only for
  equality (`ip_resolve`, `proxy_auth_method`, paths, user agent) are Lean
  `String`s.
* C `float` values (`throttle`, `maxspeed`) are modelled as `ℚ`; the
  `static_cast<int64_t>` applied when the max-speed option is written is
  truncation toward zero.
* `handle.set_opt` calls are recorded in order in a trace; a thrown
  `RepoDownloadError` terminates the routine, leaving the trace of the
  options already set.
-/

set_option maxRecDepth 8192

namespace Librepo

/-- A byte, i.e. the value of an `unsigned char`. -/
abbrev Byte := Fin 256

/-- A byte string, i.e. the contents of a `std::string`. -/
abbrev ByteStr := List Byte

/-- The `isalnum` predicate of the C library, in the POSIX locale, on a byte:
ASCII digits, upper-case letters and lower-case letters. -/
def isalnum (b : Byte) : Bool :=
  (48 ≤ b.val && b.val ≤ 57) || (65 ≤ b.val && b.val ≤ 90) || (97 ≤ b.val && b.val ≤ 122)

/-- The `no_encode` lambda of `url_encode`:
`isalnum(ch) != 0 || ch == '-' || ch == '.' || ch == '_' || ch == '~'`. -/
def no_encode (b : Byte) : Bool :=
  isalnum b || b.val = 45 || b.val = 46 || b.val = 95 || b.val = 126

/-- One hex digit as computed by `url_encode`:
`hex += hex <= 9 ? '0' : 'a' - 10` (so `'0' = 48`, `'a' - 10 = 87`). -/
def hexChar (hex : Nat) : Byte :=
  ((hex + (if hex ≤ 9 then 48 else 87) : Nat) : Byte)

/-- The bytes `url_encode` pushes for one input byte `ch`: the byte itself when
`no_encode ch`, else `'%'` (37) followed by `hexChar` of the high nibble
(`static_cast<unsigned char>(ch) >> 4`) and of the low nibble (`... & 0x0F`). -/
def encodeByte (ch : Byte) : ByteStr :=
  if no_encode ch then [ch]
  else [37, hexChar (ch.val >>> 4), hexChar (ch.val &&& 0x0F)]

/-- `url_encode` from `librepo.cpp`: the encoding loop over the input bytes.
(The length precomputation in the source only sizes the output buffer and has
no observable effect.) -/
def url_encode : ByteStr → ByteStr
  | [] => []
  | ch :: rest => encodeByte ch ++ url_encode rest

/-- `format_user_pass_string` from `librepo.cpp`: `user:password`, with both
components URL-encoded when `encode` is true.  `58` is `':'`. -/
def format_user_pass_string (user passwd : ByteStr) (encode : Bool) : ByteStr :=
  if encode then url_encode user ++ (58 : Byte) :: url_encode passwd
  else user ++ (58 : Byte) :: passwd

/-! Spec-side definitions for the percent-encoder claims, written from the
spec's words ("unreserved characters `A–Z`, `a–z`, `0–9`, `-`, `.`, `_`, `~`";
"`%` followed by two lower-case hexadecimal digits representing `b` as an
unsigned 8-bit value"), to be compared against the source-derived
`url_encode`. -/

/-- The RFC 3986 unreserved set as the spec lists it. -/
def unreservedSpec (b : Byte) : Bool :=
  (65 ≤ b.val && b.val ≤ 90) || (97 ≤ b.val && b.val ≤ 122) ||
  (48 ≤ b.val && b.val ≤ 57) ||
  b.val = 45 || b.val = 46 || b.val = 95 || b.val = 126

/-- A lower-case hexadecimal digit of a value `d < 16`, per the spec. -/
def hexDigitLower (d : Nat) : Byte :=
  if d < 10 then ((48 + d : Nat) : Byte) else ((97 + (d - 10) : Nat) : Byte)

/-- Per-byte output demanded by the spec: unreserved bytes verbatim, any other
byte as `%` plus the two lower-case hex digits of its 8-bit value. -/
def specEncodeByte (b : Byte) : ByteStr :=
  if unreservedSpec b then [b]
  else [37, hexDigitLower (b.val / 16), hexDigitLower (b.val % 16)]

theorem encodeByte_eq_spec : ∀ b : Byte, encodeByte b = specEncodeByte b := by
  decide

theorem no_encode_eq_unreservedSpec : ∀ b : Byte, no_encode b = unreservedSpec b := by
  decide

theorem url_encode_eq_flatten (s : ByteStr) :
    url_encode s = (s.map specEncodeByte).flatten := by
  induction s with
  | nil => rfl
  | cons b t ih => simpa [url_encode, encodeByte_eq_spec b] using ih

theorem encodeByte_length (b : Byte) :
    (encodeByte b).length = if unreservedSpec b then 1 else 3 := by
  rw [encodeByte_eq_spec]
  unfold specEncodeByte
  split <;> rfl

theorem url_encode_length (s : ByteStr) :
    (url_encode s).length =
      (s.filter unreservedSpec).length + 3 * (s.filter (fun b => !unreservedSpec b)).length := by
  induction s with
  | nil => rfl
  | cons b t ih =>
    rw [url_encode, List.length_append, ih, encodeByte_length]
    by_cases h : unreservedSpec b = true <;> simp [List.filter_cons, h] <;> omega

theorem url_encode_id_of_unreserved (s : ByteStr) (h : ∀ b ∈ s, unreservedSpec b) :
    url_encode s = s := by
  induction s with
  | nil => rfl
  | cons b t ih =>
    have hb : unreservedSpec b := h b (List.mem_cons_self b t)
    have hcode : no_encode b = true := by rw [no_encode_eq_unreservedSpec]; exact hb
    rw [url_encode, encodeByte, if_pos hcode, List.singleton_append,
      ih (fun x hx => h x (List.mem_cons_of_mem b hx))]

/-- C3: `url_encode` emits each unreserved byte verbatim and every other byte
as `%` plus two lower-case hex digits of its 8-bit value (so the output is the
concatenation of the spec's per-byte encodings), the output length is
`n_unreserved + 3 * n_other`, and on strings of only unreserved bytes the
encoder is the identity. -/
theorem url_encode_spec (s : ByteStr) :
    url_encode s = (s.map specEncodeByte).flatten ∧
    (url_encode s).length =
      (s.filter unreservedSpec).length + 3 * (s.filter (fun b => !unreservedSpec b)).length ∧
    ((∀ b ∈ s, unreservedSpec b) → url_encode s = s) :=
  ⟨url_encode_eq_flatten s, url_encode_length s, url_encode_id_of_unreserved s⟩

/-- C3 witness: the theorem applied to the concrete input `"a b"`
(bytes `97, 32, 98`), whose encoding is `"a%20b"`. -/
theorem url_encode_spec_witness :
    url_encode [(97 : Byte), 32, 98] = ([[(97 : Byte)], [37, 50, 48], [98]] : List ByteStr).flatten ∧
    (url_encode [(97 : Byte), 32, 98]).length =
      ([(97 : Byte), 32, 98].filter unreservedSpec).length +
        3 * ([(97 : Byte), 32, 98].filter (fun b => !unreservedSpec b)).length ∧
    ((∀ b ∈ [(97 : Byte), 32, 98], unreservedSpec b) → url_encode [(97 : Byte), 32, 98] = [97, 32, 98]) := by
  have h := url_encode_spec [(97 : Byte), 32, 98]
  refine ⟨?_, h.2.1, h.2.2⟩
  rw [h.1]
  decide

/-- C7: `format_user_pass_string user passwd encode` is the user component, a
single literal `':'` (byte 58), then the password component; when `encode` is
true each component is percent-encoded first, while the separator is emitted
verbatim (it is never the image of the encoder, which maps `':'` to
`"%3a"`). -/
theorem format_user_pass_string_spec (user passwd : ByteStr) (encode : Bool) :
    format_user_pass_string user passwd encode =
      (if encode then url_encode user else user) ++
        (58 : Byte) :: (if encode then url_encode passwd else passwd) ∧
    url_encode [(58 : Byte)] = [37, 51, 97] := by
  constructor
  · unfold format_user_pass_string
    cases encode <;> simp
  · decide

/-! Injectivity of the percent-encoder (C8).  We build a one-step decoder and
show it recovers the first input byte from any encoded string. -/

/-- Value of a lower-case hex digit byte (inverse of `hexChar` on its range). -/
def hexVal (b : Byte) : Nat :=
  if b.val ≤ 57 then b.val - 48 else b.val - 87

/-- One-step decoder: reads back the first encoded byte and the remaining
encoded tail. -/
def decodeOne : ByteStr → Option (Byte × ByteStr)
  | [] => none
  | c :: rest =>
    if c.val = 37 then
      match rest with
      | h1 :: h2 :: rest2 => some (((hexVal h1 * 16 + hexVal h2 : Nat) : Byte), rest2)
      | _ => none
    else some (c, rest)

theorem no_encode_ne_percent (b : Byte) (h : no_encode b = true) : b.val ≠ 37 := by
  revert h; revert b; decide

theorem hex_roundtrip :
    ∀ b : Byte, ((hexVal (hexChar (b.val >>> 4)) * 16 + hexVal (hexChar (b.val &&& 0x0F)) : Nat) : Byte) = b := by
  decide

theorem decodeOne_encodeByte (b : Byte) (rest : ByteStr) :
    decodeOne (encodeByte b ++ rest) = some (b, rest) := by
  unfold encodeByte
  by_cases h : no_encode b = true
  · rw [if_pos h, List.singleton_append]
    simp only [decodeOne]
    rw [if_neg (no_encode_ne_percent b h)]
  · rw [if_neg h, List.cons_append, List.cons_append, List.cons_append, List.nil_append]
    show some ((((hexVal (hexChar (b.val >>> 4)) * 16 + hexVal (hexChar (b.val &&& 0x0F))) : Nat) : Byte), rest)
      = some (b, rest)
    rw [hex_roundtrip b]

theorem encodeByte_ne_nil (b : Byte) : encodeByte b ≠ [] := by
  unfold encodeByte
  split <;> simp

/-- C8: the percent-encoder is injective on byte strings. -/
theorem url_encode_injective (s1 s2 : ByteStr) (h : url_encode s1 = url_encode s2) :
    s1 = s2 := by
  induction s1 generalizing s2 with
  | nil =>
    cases s2 with
    | nil => rfl
    | cons b t =>
      rw [url_encode, url_encode] at h
      exact absurd (List.append_eq_nil.mp h.symm).1 (encodeByte_ne_nil b)
  | cons b t ih =>
    cases s2 with
    | nil =>
      rw [url_encode, url_encode] at h
      exact absurd (List.append_eq_nil.mp h).1 (encodeByte_ne_nil b)
    | cons b2 t2 =>
      rw [url_encode, url_encode] at h
      have hd : decodeOne (encodeByte b ++ url_encode t)
          = decodeOne (encodeByte b2 ++ url_encode t2) := by rw [h]
      rw [decodeOne_encodeByte, decodeOne_encodeByte] at hd
      have hb : b = b2 := (Prod.mk.injEq _ _ _ _ ▸ Option.some.inj hd).1
      have ht : url_encode t = url_encode t2 := (Prod.mk.injEq _ _ _ _ ▸ Option.some.inj hd).2
      rw [hb, ih t2 ht]

/-- C8 witness: injectivity applied at the concrete encoded strings of
`"%"` (byte 37). -/
theorem url_encode_injective_witness : ([(37 : Byte)] : ByteStr) = [(37 : Byte)] :=
  url_encode_injective [(37 : Byte)] [(37 : Byte)] rfl

/-! The remote configurator `init_remote`.  The handle is modelled by the
ordered trace of `set_opt` calls it receives; throwing `RepoDownloadError`
stops the routine with the trace accumulated so far. -/

/-- The `LrIpResolve` values used by `init_remote`. -/
inductive LrIpResolve where
  | v4
  | v6
deriving DecidableEq

/-- The `LrAuth` values of the `PROXYAUTHMETHODS` table. -/
inductive LrAuth where
  | auth_none
  | basic
  | digest
  | negotiate
  | ntlm
  | digest_ie
  | ntlm_wb
  | any
deriving DecidableEq

/-- The `PROXYAUTHMETHODS` table mapping config strings to `LrAuth` values. -/
def PROXYAUTHMETHODS : List (String × LrAuth) :=
  [("none", .auth_none),
   ("basic", .basic),
   ("digest", .digest),
   ("negotiate", .negotiate),
   ("ntlm", .ntlm),
   ("digest_ie", .digest_ie),
   ("ntlm_wb", .ntlm_wb),
   ("any", .any)]

/-- The lookup loop of `init_remote`: `proxy_auth_method` starts as
`LR_AUTH_ANY` and the first table entry whose name equals the config string
wins. -/
def lookupProxyAuth (s : String) : LrAuth :=
  go PROXYAUTHMETHODS
where
  go : List (String × LrAuth) → LrAuth
    | [] => .any
    | (name, code) :: rest => if s = name then code else go rest

/-- One `handle.set_opt(...)` call, tagged by the `LRO_*` option. -/
inductive SetOpt where
  | useragent (v : String)
  | lowspeedlimit (v : Int)
  | maxspeed (v : Int)
  | connecttimeout (v : Int)
  | lowspeedtime (v : Int)
  | ipresolve (v : LrIpResolve)
  | userpwd (v : ByteStr)
  | sslcacert (v : String)
  | sslclientcert (v : String)
  | sslclientkey (v : String)
  | sslverifyhost (v : Int)
  | sslverifypeer (v : Int)
  | proxy (v : String)
  | proxyauthmethods (v : LrAuth)
  | proxyuserpwd (v : ByteStr)
  | proxysslcacert (v : String)
  | proxysslclientcert (v : String)
  | proxysslclientkey (v : String)
  | proxysslverifyhost (v : Int)
  | proxysslverifypeer (v : Int)
deriving DecidableEq

/-- The configuration fields read by `init_remote` (common to `ConfigMain` and
`ConfigRepo`).  `proxy` and `proxy_username` are options whose presence the
source tests with `.empty()` on the option object before reading the value. -/
structure Config where
  user_agent : String
  minrate : Int
  throttle : ℚ
  bandwidth : Int
  timeout : Int
  ip_resolve : String
  username : ByteStr
  password : ByteStr
  sslcacert : String
  sslclientcert : String
  sslclientkey : String
  sslverify : Bool
  proxy : Option String
  proxy_auth_method : String
  proxy_username : Option ByteStr
  proxy_password : ByteStr
  proxy_sslcacert : String
  proxy_sslclientcert : String
  proxy_sslclientkey : String
  proxy_sslverify : Bool

/-- The error thrown by `init_remote` (a `RepoDownloadError` whose message
distinguishes the maxspeed/minrate condition). -/
inductive RepoDownloadError where
  | maxspeedLowerThanMinrate
deriving DecidableEq

/-- Truncation toward zero, the effect of `static_cast<int64_t>` on a real
value in range. -/
def truncToInt (q : ℚ) : Int :=
  if 0 ≤ q then ⌊q⌋ else ⌈q⌉

/-- The `maxspeed` local of `init_remote`: starts as `throttle` and is scaled
by `bandwidth` when `0 < maxspeed ≤ 1`. -/
def maxspeedOf (cfg : Config) : ℚ :=
  if 0 < cfg.throttle ∧ cfg.throttle ≤ 1 then cfg.throttle * (cfg.bandwidth : ℚ)
  else cfg.throttle

/-- The `set_opt` calls `init_remote` performs after the maxspeed/minrate
check passes, in source order. -/
def successTrace (cfg : Config) : List SetOpt :=
  [SetOpt.useragent cfg.user_agent]
  ++ [SetOpt.lowspeedlimit cfg.minrate, SetOpt.maxspeed (truncToInt (maxspeedOf cfg))]
  ++ (if 0 < cfg.timeout then
        [SetOpt.connecttimeout cfg.timeout, SetOpt.lowspeedtime cfg.timeout] else [])
  ++ (if cfg.ip_resolve = "ipv4" then [SetOpt.ipresolve .v4]
      else if cfg.ip_resolve = "ipv6" then [SetOpt.ipresolve .v6] else [])
  ++ (if cfg.username ≠ [] then
        [SetOpt.userpwd (format_user_pass_string cfg.username cfg.password false)] else [])
  ++ (if cfg.sslcacert ≠ "" then [SetOpt.sslcacert cfg.sslcacert] else [])
  ++ (if cfg.sslclientcert ≠ "" then [SetOpt.sslclientcert cfg.sslclientcert] else [])
  ++ (if cfg.sslclientkey ≠ "" then [SetOpt.sslclientkey cfg.sslclientkey] else [])
  ++ [SetOpt.sslverifyhost (if cfg.sslverify then 1 else 0),
      SetOpt.sslverifypeer (if cfg.sslverify then 1 else 0)]
  ++ (match cfg.proxy with
      | some p => if p ≠ "" then [SetOpt.proxy p] else []
      | none => [])
  ++ [SetOpt.proxyauthmethods (lookupProxyAuth cfg.proxy_auth_method)]
  ++ (match cfg.proxy_username with
      | some u =>
        if u ≠ [] then
          [SetOpt.proxyuserpwd (format_user_pass_string u cfg.proxy_password true)]
        else []
      | none => [])
  ++ (if cfg.proxy_sslcacert ≠ "" then [SetOpt.proxysslcacert cfg.proxy_sslcacert] else [])
  ++ (if cfg.proxy_sslclientcert ≠ "" then
        [SetOpt.proxysslclientcert cfg.proxy_sslclientcert] else [])
  ++ (if cfg.proxy_sslclientkey ≠ "" then
        [SetOpt.proxysslclientkey cfg.proxy_sslclientkey] else [])
  ++ [SetOpt.proxysslverifyhost (if cfg.proxy_sslverify then 1 else 0),
      SetOpt.proxysslverifypeer (if cfg.proxy_sslverify then 1 else 0)]

/-- Outcome of `init_remote`: the trace of `set_opt` calls made before the
routine returned or threw, and the thrown error if any. -/
structure InitRemoteResult where
  trace : List SetOpt
  error : Option RepoDownloadError
deriving DecidableEq

/-- `init_remote` from `librepo.cpp`: sets the user agent, computes
`maxspeed`, throws `RepoDownloadError` when `maxspeed != 0 && maxspeed <
minrate`, and otherwise applies the remaining options in source order. -/
def init_remote (cfg : Config) : InitRemoteResult :=
  if maxspeedOf cfg ≠ 0 ∧ maxspeedOf cfg < (cfg.minrate : ℚ) then
    { trace := [SetOpt.useragent cfg.user_agent],
      error := some .maxspeedLowerThanMinrate }
  else
    { trace := successTrace cfg, error := none }

/-- Membership in `if c then l1 else l2`, used to push list membership through
the conditional segments of the trace. -/
theorem mem_ite_list {α : Type} {c : Prop} [Decidable c] {x : α} {l1 l2 : List α} :
    (x ∈ if c then l1 else l2) ↔ (c ∧ x ∈ l1) ∨ (¬c ∧ x ∈ l2) := by
  split <;> simp [*]

theorem init_remote_of_success (cfg : Config) (h : (init_remote cfg).error = none) :
    init_remote cfg = { trace := successTrace cfg, error := none } := by
  by_cases hc : maxspeedOf cfg ≠ 0 ∧ maxspeedOf cfg < (cfg.minrate : ℚ)
  · rw [init_remote, if_pos hc] at h
    simp at h
  · rw [init_remote, if_neg hc]

/-- C1: when the computed `maxspeed` is nonzero and strictly below `minrate`,
`init_remote` throws the `RepoDownloadError` (the spec's ConfigInvalid), and
the trace at that point contains neither a low-speed-limit nor a max-speed
option: the cross-field check runs before either is written. -/
theorem configInvalid_before_speed_opts (cfg : Config)
    (h1 : maxspeedOf cfg ≠ 0) (h2 : maxspeedOf cfg < (cfg.minrate : ℚ)) :
    (init_remote cfg).error = some .maxspeedLowerThanMinrate ∧
    ∀ o ∈ (init_remote cfg).trace,
      (∀ v, o ≠ SetOpt.lowspeedlimit v) ∧ (∀ v, o ≠ SetOpt.maxspeed v) := by
  rw [init_remote, if_pos ⟨h1, h2⟩]
  refine ⟨rfl, ?_⟩
  intro o ho
  rw [List.mem_singleton] at ho
  subst ho
  exact ⟨fun v => by simp, fun v => by simp⟩

/-- A configuration failing the cross-field check: `throttle = 500` (outside
`(0, 1]`, so used verbatim), `minrate = 1000`, hence `maxspeed = 500 < 1000`. -/
def exCfgBad : Config :=
  { user_agent := "libdnf", minrate := 1000, throttle := 500, bandwidth := 0,
    timeout := 30, ip_resolve := "ipv4", username := [97], password := [64],
    sslcacert := "", sslclientcert := "", sslclientkey := "", sslverify := true,
    proxy := some "http://proxy.example", proxy_auth_method := "basic",
    proxy_username := some [112], proxy_password := [32],
    proxy_sslcacert := "", proxy_sslclientcert := "", proxy_sslclientkey := "",
    proxy_sslverify := false }

/-- C1 witness: the theorem applied to `exCfgBad`. -/
theorem configInvalid_before_speed_opts_witness :
    (init_remote exCfgBad).error = some .maxspeedLowerThanMinrate ∧
    ∀ o ∈ (init_remote exCfgBad).trace,
      (∀ v, o ≠ SetOpt.lowspeedlimit v) ∧ (∀ v, o ≠ SetOpt.maxspeed v) :=
  configInvalid_before_speed_opts exCfgBad (by decide) (by decide)

theorem maxspeed_mem_successTrace (cfg : Config) :
    SetOpt.maxspeed (truncToInt (maxspeedOf cfg)) ∈ successTrace cfg := by
  unfold successTrace
  simp

/-- C2: `maxspeed` is `throttle * bandwidth` when `throttle ∈ (0, 1]` and
`throttle` verbatim otherwise; whenever the routine does not throw, the
max-speed option is set to that value (as an `int64_t`, truncated toward
zero), and for `throttle = 0` the max-speed option is set to `0`. -/
theorem maxspeed_option_spec (cfg : Config) :
    maxspeedOf cfg = (if 0 < cfg.throttle ∧ cfg.throttle ≤ 1
      then cfg.throttle * (cfg.bandwidth : ℚ) else cfg.throttle) ∧
    ((init_remote cfg).error = none →
      SetOpt.maxspeed (truncToInt (maxspeedOf cfg)) ∈ (init_remote cfg).trace) ∧
    (cfg.throttle = 0 → SetOpt.maxspeed 0 ∈ (init_remote cfg).trace) := by
  refine ⟨rfl, ?_, ?_⟩
  · intro h
    rw [init_remote_of_success cfg h]
    exact maxspeed_mem_successTrace cfg
  · intro h0
    have hms : maxspeedOf cfg = 0 := by
      rw [maxspeedOf, h0]
      simp
    have hc : ¬(maxspeedOf cfg ≠ 0 ∧ maxspeedOf cfg < (cfg.minrate : ℚ)) :=
      fun hc => hc.1 hms
    rw [init_remote, if_neg hc]
    have hmem := maxspeed_mem_successTrace cfg
    rw [hms] at hmem
    simpa [truncToInt] using hmem

/-- A configuration with `throttle = 0` (so `maxspeed = 0` and the cross-field
check passes) and every optional field populated. -/
def exCfgOk : Config :=
  { user_agent := "libdnf", minrate := 1000, throttle := 0, bandwidth := 500,
    timeout := 0, ip_resolve := "ipv6", username := [97], password := [64],
    sslcacert := "ca", sslclientcert := "", sslclientkey := "", sslverify := false,
    proxy := some "http://proxy.example", proxy_auth_method := "kerberos",
    proxy_username := some [112, 64], proxy_password := [32],
    proxy_sslcacert := "", proxy_sslclientcert := "", proxy_sslclientkey := "",
    proxy_sslverify := true }

/-- C2 witness: the theorem applied to `exCfgOk`, whose `throttle` is `0`. -/
theorem maxspeed_option_spec_witness :
    (init_remote exCfgOk).error = none ∧
    SetOpt.maxspeed (truncToInt (maxspeedOf exCfgOk)) ∈ (init_remote exCfgOk).trace ∧
    SetOpt.maxspeed 0 ∈ (init_remote exCfgOk).trace :=
  ⟨by decide, (maxspeed_option_spec exCfgOk).2.1 (by decide),
    (maxspeed_option_spec exCfgOk).2.2 rfl⟩

/-- C9: `init_remote` writes the user-agent option before evaluating the
maxspeed/minrate check, so a configuration failing the check throws with the
user-agent option already set: the trace at the throw is exactly
`[useragent]`. -/
theorem useragent_set_before_check (cfg : Config)
    (h1 : maxspeedOf cfg ≠ 0) (h2 : maxspeedOf cfg < (cfg.minrate : ℚ)) :
    (init_remote cfg).error = some .maxspeedLowerThanMinrate ∧
    (init_remote cfg).trace = [SetOpt.useragent cfg.user_agent] := by
  rw [init_remote, if_pos ⟨h1, h2⟩]
  exact ⟨rfl, rfl⟩

/-- C9 witness: the theorem applied to a failing configuration. -/
theorem useragent_set_before_check_witness :
    (init_remote exCfgBad).error = some .maxspeedLowerThanMinrate ∧
    (init_remote exCfgBad).trace = [SetOpt.useragent "libdnf"] :=
  useragent_set_before_check exCfgBad (by decide) (by decide)

/-- C4: when `username` is non-empty, the user-password option receives
`username:password` with no percent-encoding; when `proxy_username` is present
and non-empty, the proxy-user-password option receives
`proxy_username:proxy_password` with both components percent-encoded. -/
theorem credential_encoding_spec (cfg : Config) :
    (cfg.username ≠ [] → (init_remote cfg).error = none →
      SetOpt.userpwd (cfg.username ++ (58 : Byte) :: cfg.password) ∈ (init_remote cfg).trace) ∧
    (∀ u, cfg.proxy_username = some u → u ≠ [] → (init_remote cfg).error = none →
      SetOpt.proxyuserpwd (url_encode u ++ (58 : Byte) :: url_encode cfg.proxy_password) ∈
        (init_remote cfg).trace) := by
  constructor
  · intro hu h
    rw [init_remote_of_success cfg h]
    unfold successTrace
    simp [mem_ite_list, hu, format_user_pass_string]
  · intro u hpu hu h
    rw [init_remote_of_success cfg h]
    unfold successTrace
    simp [mem_ite_list, hpu, hu, format_user_pass_string]

/-- C4 witness: the theorem applied to `exCfgOk`, whose `username` is `"a"`,
`password` `"@"`, `proxy_username` `some "p@"` and `proxy_password` `" "`. -/
theorem credential_encoding_spec_witness :
    SetOpt.userpwd (exCfgOk.username ++ (58 : Byte) :: exCfgOk.password) ∈
      (init_remote exCfgOk).trace ∧
    SetOpt.proxyuserpwd (url_encode [(112 : Byte), 64] ++ (58 : Byte) ::
      url_encode exCfgOk.proxy_password) ∈ (init_remote exCfgOk).trace :=
  ⟨(credential_encoding_spec exCfgOk).1 (by decide) (by decide),
   (credential_encoding_spec exCfgOk).2 [112, 64] (by decide) (by decide) (by decide)⟩

/-- C5: whenever `init_remote` does not throw, the proxy-auth-methods option
is set to the table lookup of `proxy_auth_method`; the lookup maps every entry
of the closed `PROXYAUTHMETHODS` enumeration to its code and every string
outside the enumeration to `LR_AUTH_ANY`. -/
theorem proxy_auth_method_spec (cfg : Config) :
    ((init_remote cfg).error = none →
      SetOpt.proxyauthmethods (lookupProxyAuth cfg.proxy_auth_method) ∈ (init_remote cfg).trace) ∧
    (∀ p ∈ PROXYAUTHMETHODS, lookupProxyAuth p.1 = p.2) ∧
    (∀ s : String, s ∉ PROXYAUTHMETHODS.map Prod.fst → lookupProxyAuth s = .any) := by
  refine ⟨?_, ?_, ?_⟩
  · intro h
    rw [init_remote_of_success cfg h]
    unfold successTrace
    simp
  · intro p hp
    simp only [PROXYAUTHMETHODS, List.mem_cons, List.not_mem_nil, or_false] at hp
    rcases hp with h | h | h | h | h | h | h | h <;> subst h <;> decide
  · intro s hs
    simp only [PROXYAUTHMETHODS, List.map_cons, List.map_nil, List.mem_cons,
      List.not_mem_nil, or_false, not_or] at hs
    obtain ⟨h1, h2, h3, h4, h5, h6, h7, h8⟩ := hs
    simp [lookupProxyAuth, lookupProxyAuth.go, PROXYAUTHMETHODS, h1, h2, h3, h4, h5, h6, h7, h8]

/-- C5 witness: the theorem applied to `exCfgOk`, whose `proxy_auth_method`
`"kerberos"` is outside the enumeration and maps to `any`. -/
theorem proxy_auth_method_spec_witness :
    SetOpt.proxyauthmethods (lookupProxyAuth "kerberos") ∈ (init_remote exCfgOk).trace ∧
    lookupProxyAuth "basic" = LrAuth.basic ∧
    lookupProxyAuth "kerberos" = LrAuth.any :=
  ⟨(proxy_auth_method_spec exCfgOk).1 (by decide),
   (proxy_auth_method_spec exCfgOk).2.1 ("basic", LrAuth.basic) (by decide),
   (proxy_auth_method_spec exCfgOk).2.2 "kerberos" (by decide)⟩

theorem mem_ipresolve_successTrace (cfg : Config) (v : LrIpResolve) :
    SetOpt.ipresolve v ∈ successTrace cfg ↔
      (cfg.ip_resolve = "ipv4" ∧ v = .v4) ∨
      (¬cfg.ip_resolve = "ipv4" ∧ cfg.ip_resolve = "ipv6" ∧ v = .v6) := by
  rcases cfg with ⟨ua, mr, th, bw, tmo, ip, un, pw, c1, c2, c3, sv, px, pam, pun, ppw, pc1, pc2, pc3, psv⟩
  cases px <;> cases pun <;>
    simp [successTrace, mem_ite_list]

/-- C6: on the non-throwing path the IP-resolve option is set to IPv4-only
exactly when `ip_resolve = "ipv4"` and to IPv6-only exactly when
`ip_resolve = "ipv6"`; for any other `ip_resolve` value no IP-resolve option
is ever set (throwing or not). -/
theorem ip_resolve_option_spec (cfg : Config) :
    ((init_remote cfg).error = none →
      ((SetOpt.ipresolve .v4 ∈ (init_remote cfg).trace ↔ cfg.ip_resolve = "ipv4") ∧
       (SetOpt.ipresolve .v6 ∈ (init_remote cfg).trace ↔ cfg.ip_resolve = "ipv6"))) ∧
    (cfg.ip_resolve ≠ "ipv4" → cfg.ip_resolve ≠ "ipv6" →
      ∀ v, SetOpt.ipresolve v ∉ (init_remote cfg).trace) := by
  constructor
  · intro h
    rw [init_remote_of_success cfg h]
    constructor
    · rw [mem_ipresolve_successTrace cfg .v4]
      constructor
      · rintro (⟨h4, _⟩ | ⟨_, _, hv⟩)
        · exact h4
        · exact absurd hv (by decide)
      · intro h4
        exact Or.inl ⟨h4, rfl⟩
    · rw [mem_ipresolve_successTrace cfg .v6]
      constructor
      · rintro (⟨_, hv⟩ | ⟨_, h6, _⟩)
        · exact absurd hv (by decide)
        · exact h6
      · intro h6
        refine Or.inr ⟨?_, h6, rfl⟩
        intro h4
        rw [h4] at h6
        exact absurd h6 (by decide)
  · intro h4 h6 v
    by_cases hc : maxspeedOf cfg ≠ 0 ∧ maxspeedOf cfg < (cfg.minrate : ℚ)
    · rw [init_remote, if_pos hc]
      simp
    · rw [init_remote, if_neg hc]
      rw [show ({ trace := successTrace cfg, error := none } : InitRemoteResult).trace
        = successTrace cfg from rfl, mem_ipresolve_successTrace cfg v]
      rintro (⟨hh, _⟩ | ⟨_, hh, _⟩)
      · exact h4 hh
      · exact h6 hh

/-- C6 witness: `exCfgOk` has `ip_resolve = "ipv6"`, so the IPv6-only option
is set and the IPv4-only option is not. -/
theorem ip_resolve_option_spec_witness :
    SetOpt.ipresolve .v6 ∈ (init_remote exCfgOk).trace ∧
    SetOpt.ipresolve .v4 ∉ (init_remote exCfgOk).trace :=
  ⟨((ip_resolve_option_spec exCfgOk).1 (by decide)).2.mpr rfl,
   fun hmem =>
     absurd (((ip_resolve_option_spec exCfgOk).1 (by decide)).1.mp hmem) (by decide)⟩

/-! The move-assignment operators of the wrappers.  Object identity is
modelled by the flag `sameObject` (`this == &other` in the source); the owned
raw pointers by `Option Nat`; the pointers passed to the engine's free
function (which is a no-op on null) by the `freed` list. -/

/-- State of both wrapper objects after a move-assignment, plus the non-null
pointers freed during it. -/
structure AssignOutcome where
  selfPtr : Option Nat
  otherPtr : Option Nat
  freed : List Nat
deriving DecidableEq

/-- `LibrepoResult::operator=(LibrepoResult &&)`: if `this != &other`, free
the owned result, take `other`'s and null it; otherwise do nothing. -/
def librepoResultMoveAssign (sameObject : Bool) (selfPtr otherPtr : Option Nat) : AssignOutcome :=
  if sameObject then { selfPtr := selfPtr, otherPtr := otherPtr, freed := [] }
  else { selfPtr := otherPtr, otherPtr := none, freed := selfPtr.toList }

/-- `LibrepoHandle::operator=(LibrepoHandle &&)`: same shape as the result
wrapper's operator, on the handle pointer. -/
def librepoHandleMoveAssign (sameObject : Bool) (selfPtr otherPtr : Option Nat) : AssignOutcome :=
  if sameObject then { selfPtr := selfPtr, otherPtr := otherPtr, freed := [] }
  else { selfPtr := otherPtr, otherPtr := none, freed := selfPtr.toList }

/-- C10: self-move-assignment of either wrapper (the `sameObject` case, where
both pointers are the one pointer `p`) leaves the owned pointer unchanged and
frees nothing. -/
theorem self_move_assign_noop (p : Option Nat) :
    librepoResultMoveAssign true p p = { selfPtr := p, otherPtr := p, freed := [] } ∧
    librepoHandleMoveAssign true p p = { selfPtr := p, otherPtr := p, freed := [] } :=
  ⟨rfl, rfl⟩

end Librepo
